import Mathlib

/-!
# Verification of the ting-reader-client media cache and streaming proxy

A shallow embedding, in Lean 4, of the core subsystem of the
`ting-reader-client` desktop application: the cache manager
(`getCacheStats` / `ensureCacheLimits` in `electron/cache-manager.js`),
the temp-file write helper (`saveStreamToFile`), the `ting://` streaming
protocol handler (cache-hit range serving and the cache-miss tee into the
cache write), the manual redirect resolver (`resolve-redirect` IPC
handler), and the renderer-side download task queue
(`frontend/src/store/downloadStore.ts`).

JavaScript asynchrony is modelled by explicit state passing: the
filesystem is a record of the temp-path and final-path contents for a
single cache key, remote fetches and `new URL` resolution are supplied as
function parameters, and fallible byte streams are a list of successfully
read chunks followed by a done/error outcome.  Machine arithmetic is
exact here (`Nat`/`Int`): the JavaScript numbers involved (byte counts,
HTTP statuses, timestamps) stay far below 2^53, where JS arithmetic is
exact, except that a negative `end - start + 1` is modelled with `Int`.
-/

set_option linter.unusedVariables false

/- ## Cache manager (`electron/cache-manager.js`) -/

/-- One valid cache entry as seen by `getCacheStats`: the file's `name`,
its `size` in bytes and its modification time `mtime` (ms since epoch),
both taken from `fs.stat`. -/
structure FileEntry where
  name : String
  size : Nat
  mtime : Nat
deriving Repr, DecidableEq

/-- What `fs.stat` reports for one file: its byte size and mtime. -/
structure StatInfo where
  size : Nat
  mtime : Nat
deriving Repr, DecidableEq

/-- One directory entry before stat-ing: `getCacheStats` calls `fs.stat`
on every name returned by `fs.readdir`; `statResult = none` models a
`stat` call that threw (the entry is then mapped to `null`). -/
structure DirEntry where
  name : String
  statResult : Option StatInfo
deriving Repr, DecidableEq

/-- Result record of `getCacheStats`: `{ size: totalSize, files: validFiles }`. -/
structure CacheStats where
  size : Nat
  files : List FileEntry
deriving Repr, DecidableEq

/-- The body of the per-file callback in `getCacheStats`: a successful
`stat` yields `{ name: file, size: stats.size, mtime: stats.mtime }`, a
failed one yields `null` (here `none`). -/
def statEntry (d : DirEntry) : Option FileEntry :=
  d.statResult.map fun st => ⟨d.name, st.size, st.mtime⟩

/-- `validFiles.reduce((acc, file) => acc + file.size, 0)` from
`getCacheStats`. -/
def totalSize (l : List FileEntry) : Nat :=
  l.foldl (fun acc f => acc + f.size) 0

/-- Embedding of `getCacheStats` (cache-manager.js): list the directory,
stat every file, drop the entries whose `stat` failed (`f !== null`), and
return the summed size together with the surviving entries.  Note that
the source applies no other filter: names ending in `.tmp` and zero-byte
files are kept, and nothing is deleted. -/
def getCacheStats (dir : List DirEntry) : CacheStats :=
  let fileStats := dir.map statEntry
  let validFiles := fileStats.filterMap id
  { size := totalSize validFiles, files := validFiles }

/-- `files.sort((a, b) => a.mtime - b.mtime)` — ascending by `mtime`.
JavaScript's `Array.prototype.sort` is required to be stable (ES2019),
and `insertionSort` is a stable sort, so the two agree on every input. -/
def sortByMtime (l : List FileEntry) : List FileEntry :=
  l.insertionSort (fun a b => a.mtime ≤ b.mtime)

/-- The count-bound trim inside `ensureCacheLimits`: when the file count
exceeds `maxFiles`, `files.splice(0, files.length - maxFiles)` removes
that many oldest entries; the pair is (removed, remaining). -/
def countTrim (maxFiles : Nat) (sorted : List FileEntry) : List FileEntry × List FileEntry :=
  if sorted.length > maxFiles then
    (sorted.take (sorted.length - maxFiles), sorted.drop (sorted.length - maxFiles))
  else ([], sorted)

/-- The byte-bound loop inside `ensureCacheLimits`:
`for (const file of files) { if (currentSize <= maxBytes) break;
filesToDelete.push(file); currentSize -= file.size; }`.
Returns (entries pushed onto `filesToDelete`, entries left in place).
`cur` carries the running `currentSize`. -/
def sizeLoop (maxBytes : Nat) (cur : Nat) : List FileEntry → List FileEntry × List FileEntry
  | [] => ([], [])
  | f :: rest =>
    if cur ≤ maxBytes then ([], f :: rest)
    else
      let p := sizeLoop maxBytes (cur - f.size) rest
      (f :: p.1, p.2)

/-- Embedding of the eviction planning in `ensureCacheLimits`
(cache-manager.js): take the `getCacheStats` listing (`files`, whose
summed size is recomputed here exactly as the source receives it in
`size`), and when `size > maxBytes || files.length > maxFiles`, sort
ascending by `mtime`, first trim the oldest entries down to `maxFiles`
(subtracting each removed size from the running total), then keep
removing oldest-remaining entries until the total is at most `maxBytes`.
The result is (`filesToDelete`, the entries that remain when every
`fs.unlink` succeeds). -/
def ensureCacheLimits (maxBytes maxFiles : Nat) (files : List FileEntry) :
    List FileEntry × List FileEntry :=
  if totalSize files > maxBytes ∨ files.length > maxFiles then
    let sorted := sortByMtime files
    let trimmed := countTrim maxFiles sorted
    let afterCount := sizeLoop maxBytes (totalSize files - totalSize trimmed.1) trimmed.2
    (trimmed.1 ++ afterCount.1, afterCount.2)
  else ([], files)

/-- The deletion loop at the end of `ensureCacheLimits`:
`for (const file of filesToDelete) { await fs.unlink(file.path); }`,
executed inside the function's single `try`.  `unlinkFails f = true`
means `fs.unlink` throws for `f`; the throw leaves the loop and lands in
the `catch` (which only logs).  The result lists the entries on which an
unlink was actually attempted, in order. -/
def deletionAttempts (unlinkFails : FileEntry → Bool) : List FileEntry → List FileEntry
  | [] => []
  | f :: rest =>
    if unlinkFails f then [f] else f :: deletionAttempts unlinkFails rest

/- ## Temp-file cache writes (`saveStreamToFile`, electron/main.js) -/

/-- A Web `ReadableStream` as consumed through `reader.read()`: the
chunks that were successfully read, then either a clean end
(`ok = true`) or a read that rejected (`ok = false`). -/
structure MediaStream where
  chunks : List (List Nat)
  ok : Bool
deriving Repr, DecidableEq

/-- The slice of the filesystem relevant to one cache key: the content
at `<key>.tmp` and the content at the final key path (`none` = no such
file). -/
structure CacheFs where
  temp : Option (List Nat)
  final : Option (List Nat)
deriving Repr, DecidableEq

/-- The write loop of `saveStreamToFile`: each successfully read chunk
is appended to the temp file (`fileStream.write(value)`). -/
def writeChunks (acc : List Nat) : List (List Nat) → List Nat
  | [] => acc
  | c :: rest => writeChunks (acc ++ c) rest

/-- Embedding of `saveStreamToFile(stream, filePath)` (electron/main.js):
stream into `filePath + '.tmp'`, and only after a clean end-of-stream
`fs.move` the temp file onto `filePath` (overwriting).  Any error —
a rejected `read()` (`s.ok = false`) or a failed move
(`moveOk = false`) — is caught, the temp file is unlinked, and the error
is rethrown (`false` in the returned flag).  Filesystem primitives
themselves (`createWriteStream`, `unlink`) are assumed to succeed. -/
def saveStreamToFile (s : MediaStream) (moveOk : Bool) (fs0 : CacheFs) : CacheFs × Bool :=
  let written := writeChunks [] s.chunks
  if s.ok then
    if moveOk then ({ temp := none, final := some written }, true)
    else ({ temp := none, final := fs0.final }, false)
  else ({ temp := none, final := fs0.final }, false)

/- ## The `ting://` streaming protocol handler (electron/main.js) -/

/-- A parsed `Range: bytes=start-end` header after
`rangeHeader.replace(/bytes=/, "").split("-")` and `parseInt`:
`start = parseInt(parts[0])`, and `stop` is `parseInt(parts[1])` when
that part is present and non-empty, otherwise `none` (the handler then
defaults it to `stats.size - 1`). -/
structure RangeSpec where
  start : Int
  stop : Option Int
deriving Repr, DecidableEq

/-- The HTTP-like `Response` the protocol handler produces: status plus
the headers the handler sets and the byte body. -/
structure TingResponse where
  status : Nat
  contentRange : Option String
  acceptRanges : Option String
  contentLength : Option Int
  contentType : Option String
  body : List Nat
deriving Repr, DecidableEq

/-- Model of `fs.createReadStream(path, { start, end })`: Node's
`ReadStream` constructor validates its options and **throws
`ERR_OUT_OF_RANGE`** when `start` is negative or `start > end` (here
`none`); for valid options the delivered bytes are the file from offset
`start` through `stop` inclusive, clamped at end-of-file (a start at or
beyond EOF delivers no bytes but is not an error). -/
def fileRange (content : List Nat) (start stop : Int) : Option (List Nat) :=
  if start < 0 ∨ stop < start then none
  else some ((content.drop start.toNat).take (stop - start + 1).toNat)

/-- The `206 Partial Content` response the range branch constructs once
`createReadStream` has succeeded: `Content-Range: bytes {start}-{stop}/{size}`,
`Accept-Ranges: bytes`, `Content-Length = chunksize = (end - start) + 1`,
and the delivered bytes. -/
def mkRangeResp (content : List Nat) (start stop : Int) (body : List Nat) : TingResponse :=
  { status := 206,
    contentRange := some s!"bytes {start}-{stop}/{(content.length : Int)}",
    acceptRanges := some "bytes",
    contentLength := some (stop - start + 1),
    contentType := some "audio/mpeg",
    body := body }

/-- Embedding of the cache-hit branch of `protocol.handle('ting')` for a
non-empty cached file (electron/main.js).  With a `Range` header: parse
`start`/`stop` (defaulting `stop` to `stats.size - 1`), call
`fs.createReadStream` — which throws for degenerate bounds; the branch
has no try/catch, so that throw escapes the handler and the request
fails with **no response at all** (`none`) — and otherwise answer the
206 response of `mkRangeResp`, the handler itself checking nothing.
Without a `Range` header: answer the full file with status 200,
coalescing a missing or `application/octet-stream` content type to
`audio/mpeg`. -/
def serveCachedFile (content : List Nat) (sniffedType : Option String)
    (range : Option RangeSpec) : Option TingResponse :=
  match range with
  | some r =>
    let fileSize : Int := (content.length : Int)
    let start := r.start
    let stop :=
      match r.stop with
      | some e => e
      | none => fileSize - 1
    (fileRange content start stop).map (mkRangeResp content start stop)
  | none =>
    let coalesced :=
      match sniffedType with
      | none => some "audio/mpeg"
      | some t => if t = "application/octet-stream" then some "audio/mpeg" else some t
    some { status := 200, contentRange := none, acceptRanges := none,
           contentLength := none, contentType := coalesced, body := content }

/-- The remote `net.fetch` outcome on a cache miss: `ok` is
`response.ok` (status in [200,300)), and the body is a fallible stream. -/
structure RemoteResponse where
  ok : Bool
  status : Nat
  contentType : Option String
  bodyStream : MediaStream
deriving Repr, DecidableEq

/-- What a `ting://stream` request leaves behind: the response returned
to the renderer, the cache filesystem afterwards, and whether the branch
that tees the body into `saveStreamToFile` was taken. -/
structure MissResult where
  response : TingResponse
  fs : CacheFs
  didTee : Bool
deriving Repr, DecidableEq

/-- Embedding of the cache-miss branch of `protocol.handle('ting')`
(electron/main.js): on a non-ok remote response, return it unchanged and
touch nothing; otherwise, only when `shouldCache` (the request did not
carry `cache=0`) and the request had no `Range` header, `tee()` the body
and drain one side into `saveStreamToFile`; in every other case pass the
body straight through.  (When a `Range` header is present it is also
forwarded to the remote fetch; that only shapes `remote`, which is a
parameter here.) -/
def handleMiss (shouldCache : Bool) (hasRange : Bool) (remote : RemoteResponse)
    (moveOk : Bool) (fs0 : CacheFs) : MissResult :=
  let passBody := writeChunks [] remote.bodyStream.chunks
  if !remote.ok then
    { response := { status := remote.status, contentRange := none, acceptRanges := none,
                    contentLength := none, contentType := remote.contentType,
                    body := passBody },
      fs := fs0, didTee := false }
  else if shouldCache && !hasRange then
    { response := { status := remote.status, contentRange := none, acceptRanges := none,
                    contentLength := none, contentType := remote.contentType,
                    body := passBody },
      fs := (saveStreamToFile remote.bodyStream moveOk fs0).1, didTee := true }
  else
    { response := { status := remote.status, contentRange := none, acceptRanges := none,
                    contentLength := none, contentType := remote.contentType,
                    body := passBody },
      fs := fs0, didTee := false }

/-- The full `ting://stream` dispatch: serve from the cache when the
final file exists and is non-empty (`none` when the hit branch's
`createReadStream` throws and the request dies); delete the file and
fall through to the miss path when it exists but is empty; go straight
to the miss path when it is absent. -/
def handleStream (shouldCache : Bool) (range : Option RangeSpec) (sniffedType : Option String)
    (remote : RemoteResponse) (moveOk : Bool) (fs0 : CacheFs) : Option MissResult :=
  match fs0.final with
  | some content =>
    if content.length = 0 then
      some (handleMiss shouldCache range.isSome remote moveOk { fs0 with final := none })
    else
      (serveCachedFile content sniffedType range).map fun resp =>
        { response := resp, fs := fs0, didTee := false }
  | none => some (handleMiss shouldCache range.isSome remote moveOk fs0)

/- ## The redirect resolver (`resolve-redirect` IPC handler, electron/main.js) -/

/-- One manual-redirect probe: the response status and the `location`
header (`none` when absent). -/
structure NetResponse where
  status : Nat
  location : Option String
deriving Repr, DecidableEq

/-- Outcome of one `net.request`: a response, or the request's `error`
event (network failure). -/
inductive FetchOutcome where
  | ok (response : NetResponse)
  | fail
deriving Repr, DecidableEq

/-- JavaScript truthiness of `response.headers['location']`: present and
non-empty. -/
def locationTruthy (loc : Option String) : Bool :=
  loc.getD "" != ""

/-- Embedding of the `while (loopCount < maxRedirects)` loop of the
`resolve-redirect` handler, with the network (`net`) and
`new URL(location, currentUrl).toString()` (`resolveLoc`, `none` when
the constructor throws) as parameters.  `fuel` is the remaining loop
budget (`maxRedirects - loopCount`).  A [300,400) response with a truthy
`location` hops; a terminal status in [200,500) succeeds with the
current URL; any other terminal status, a network error, an invalid
redirect URL, or an exhausted budget throws (`none`). -/
def followRedirects (net : String → FetchOutcome)
    (resolveLoc : String → String → Option String) :
    Nat → String → Option String
  | 0, _ => none
  | fuel + 1, currentUrl =>
    match net currentUrl with
    | .fail => none
    | .ok response =>
      if 300 ≤ response.status ∧ response.status < 400 ∧ locationTruthy response.location = true then
        match resolveLoc (response.location.getD "") currentUrl with
        | none => none
        | some nextUrl => followRedirects net resolveLoc fuel nextUrl
      else if 200 ≤ response.status ∧ response.status < 500 then some currentUrl
      else none

/-- `List.isPrefixOf` on characters, written out so that it reduces
inside the kernel (used to model `String.prototype.startsWith` and the
anchored regex tests below). -/
def charsPrefix : List Char → List Char → Bool
  | [], _ => true
  | _ :: _, [] => false
  | a :: as, b :: bs => a = b && charsPrefix as bs

/-- `s.startsWith(p)` over the underlying character list. -/
def strStarts (s p : String) : Bool :=
  charsPrefix p.data s.data

/-- Lower-casing over the underlying character list (for the `/i` regex
flags). -/
def strLower (s : String) : String :=
  ⟨s.data.map Char.toLower⟩

/-- Dropping the first `n` characters (`String.prototype.slice(n)`). -/
def strDrop (s : String) (n : Nat) : String :=
  ⟨s.data.drop n⟩

/-- Dropping leading whitespace (the `\s*` part of the regexes). -/
def strTrimLeft (s : String) : String :=
  ⟨s.data.dropWhile Char.isWhitespace⟩

/-- `if (!currentUrl.startsWith('http')) currentUrl = 'http://' + currentUrl`. -/
def schemeFix (s : String) : String :=
  if strStarts s "http" then s else "http://" ++ s

/-- The part of the URL after a leading `http://` or `https://`
(case-insensitively), if any. -/
def schemeRest (s : String) : Option String :=
  if strStarts (strLower s) "http://" then some (strDrop s 7)
  else if strStarts (strLower s) "https://" then some (strDrop s 8)
  else none

/-- `currentUrl.match(/^http:\/\/\s*http/i) || currentUrl.match(/^https:\/\/\s*http/i)`. -/
def hasDupScheme (s : String) : Bool :=
  match schemeRest s with
  | some rest => strStarts (strLower (strTrimLeft rest)) "http"
  | none => false

/-- The malformed-URL repair in the handler: when an extra scheme was
prepended to an already-full URL, `replace(/^https?:\/\/\s*/i, '')`
strips the outer scheme and the whitespace after it. -/
def collapseDupScheme (s : String) : String :=
  if hasDupScheme s then strTrimLeft ((schemeRest s).getD s) else s

/-- Embedding of the whole `resolve-redirect` handler: normalize the
typed address, follow up to `maxRedirects = 10` hops, and on any failure
fall back to returning the original, unresolved input
(`return initialUrl` in the handler's `catch`). -/
def resolveRedirect (net : String → FetchOutcome)
    (resolveLoc : String → String → Option String) (initialUrl : String) : String :=
  let normalized := collapseDupScheme (schemeFix initialUrl)
  (followRedirects net resolveLoc 10 normalized).getD initialUrl

/- ## The download task queue (`frontend/src/store/downloadStore.ts`) -/

/-- `DownloadTask.status` values. -/
inductive TaskStatus where
  | pending
  | downloading
  | completed
  | failed
deriving Repr, DecidableEq

/-- The fields of a `DownloadTask` that the queue logic reads or writes
(`id`, `status`, `progress`, `error`, `timestamp`); the purely
descriptive fields (`bookId`, `title`, ...) are carried through
untouched by every operation modelled here and are omitted. -/
structure DownloadTask where
  id : String
  status : TaskStatus
  progress : Nat
  error : Option String
  timestamp : Nat
deriving Repr, DecidableEq

/-- Embedding of `retryTask(taskId)`: every task with that id is reset
to `pending` with `progress 0` and its error cleared. -/
def retryTask (tasks : List DownloadTask) (taskId : String) : List DownloadTask :=
  tasks.map fun t =>
    if t.id = taskId then { t with status := .pending, progress := 0, error := none } else t

/-- Embedding of `addTask(taskInfo)`: a no-op when a task with the same
id exists in a non-`failed` state; a `retryTask` when a `failed` task
with that id exists; otherwise a fresh `pending` task with progress 0 is
prepended (`[newTask, ...tasks]`). -/
def addTask (tasks : List DownloadTask) (newId : String) (now : Nat) : List DownloadTask :=
  if (tasks.find? fun t => decide (t.id = newId ∧ t.status ≠ TaskStatus.failed)).isSome then
    tasks
  else if (tasks.find? fun t => decide (t.id = newId ∧ t.status = TaskStatus.failed)).isSome then
    retryTask tasks newId
  else
    { id := newId, status := .pending, progress := 0, error := none, timestamp := now } :: tasks

/- ## Shared lemmas about the cache-manager model -/

theorem totalSize_foldl (a : Nat) (l : List FileEntry) :
    l.foldl (fun acc f => acc + f.size) a = a + totalSize l := by
  induction l generalizing a with
  | nil => simp [totalSize]
  | cons f rest ih =>
    simp only [List.foldl_cons, totalSize]
    rw [ih (a + f.size), ih (0 + f.size)]
    omega

theorem totalSize_cons (f : FileEntry) (l : List FileEntry) :
    totalSize (f :: l) = f.size + totalSize l := by
  show List.foldl (fun acc f => acc + f.size) 0 (f :: l) = _
  rw [List.foldl_cons]
  simpa using totalSize_foldl (0 + f.size) l

theorem totalSize_append (l₁ l₂ : List FileEntry) :
    totalSize (l₁ ++ l₂) = totalSize l₁ + totalSize l₂ := by
  induction l₁ with
  | nil => simp [totalSize]
  | cons f rest ih =>
    simp only [List.cons_append, totalSize_cons, ih]
    omega

theorem totalSize_perm {l₁ l₂ : List FileEntry} (h : l₁.Perm l₂) :
    totalSize l₁ = totalSize l₂ := by
  induction h with
  | nil => rfl
  | cons f _ ih => simp [totalSize_cons, ih]
  | swap a b l => simp [totalSize_cons]; omega
  | trans _ _ ih₁ ih₂ => exact ih₁.trans ih₂

theorem sortByMtime_perm (l : List FileEntry) : (sortByMtime l).Perm l :=
  List.perm_insertionSort _ l

theorem countTrim_append (maxFiles : Nat) (s : List FileEntry) :
    (countTrim maxFiles s).1 ++ (countTrim maxFiles s).2 = s := by
  unfold countTrim
  split
  · exact List.take_append_drop _ _
  · simp

theorem countTrim_length (maxFiles : Nat) (s : List FileEntry) :
    (countTrim maxFiles s).2.length ≤ maxFiles := by
  unfold countTrim
  split
  · simp only [List.length_drop]
    omega
  · rename_i h
    simpa using Nat.le_of_not_lt h

theorem sizeLoop_kept (maxBytes : Nat) (l : List FileEntry) (cur : Nat)
    (h : cur = totalSize l) :
    totalSize (sizeLoop maxBytes cur l).2 ≤ maxBytes ∧
      (sizeLoop maxBytes cur l).2.length ≤ l.length := by
  induction l generalizing cur with
  | nil => simp [sizeLoop, totalSize]
  | cons f rest ih =>
    by_cases hc : cur ≤ maxBytes
    · simp only [sizeLoop, if_pos hc]
      exact ⟨h ▸ hc, Nat.le_refl _⟩
    · simp only [sizeLoop, if_neg hc]
      have hrest : cur - f.size = totalSize rest := by
        rw [h, totalSize_cons]
        omega
      have hres := ih (cur - f.size) hrest
      exact ⟨hres.1, Nat.le_succ_of_le hres.2⟩

theorem ensureCacheLimits_over (maxBytes maxFiles : Nat) (files : List FileEntry)
    (h : totalSize files > maxBytes ∨ files.length > maxFiles) :
    ensureCacheLimits maxBytes maxFiles files =
      ((countTrim maxFiles (sortByMtime files)).1 ++
         (sizeLoop maxBytes
           (totalSize files - totalSize (countTrim maxFiles (sortByMtime files)).1)
           (countTrim maxFiles (sortByMtime files)).2).1,
       (sizeLoop maxBytes
         (totalSize files - totalSize (countTrim maxFiles (sortByMtime files)).1)
         (countTrim maxFiles (sortByMtime files)).2).2) := by
  unfold ensureCacheLimits
  rw [if_pos h]

theorem ensureCacheLimits_under (maxBytes maxFiles : Nat) (files : List FileEntry)
    (h : ¬(totalSize files > maxBytes ∨ files.length > maxFiles)) :
    ensureCacheLimits maxBytes maxFiles files = ([], files) := by
  unfold ensureCacheLimits
  rw [if_neg h]

theorem ensureCacheLimits_bounds (maxBytes maxFiles : Nat) (files : List FileEntry) :
    totalSize (ensureCacheLimits maxBytes maxFiles files).2 ≤ maxBytes ∧
      (ensureCacheLimits maxBytes maxFiles files).2.length ≤ maxFiles := by
  by_cases h : totalSize files > maxBytes ∨ files.length > maxFiles
  · rw [ensureCacheLimits_over maxBytes maxFiles files h]
    have hperm : totalSize (sortByMtime files) = totalSize files :=
      totalSize_perm (sortByMtime_perm files)
    have happ : totalSize (countTrim maxFiles (sortByMtime files)).1 +
        totalSize (countTrim maxFiles (sortByMtime files)).2
        = totalSize (sortByMtime files) := by
      rw [← totalSize_append, countTrim_append]
    have hcur : totalSize files - totalSize (countTrim maxFiles (sortByMtime files)).1
        = totalSize (countTrim maxFiles (sortByMtime files)).2 := by omega
    have hloop := sizeLoop_kept maxBytes (countTrim maxFiles (sortByMtime files)).2
      (totalSize files - totalSize (countTrim maxFiles (sortByMtime files)).1) hcur
    exact ⟨hloop.1, hloop.2.trans (countTrim_length maxFiles (sortByMtime files))⟩
  · rw [ensureCacheLimits_under maxBytes maxFiles files h]
    push_neg at h
    exact ⟨h.1, h.2⟩

theorem ensureCacheLimits_second_pass (maxBytes maxFiles : Nat) (kept : List FileEntry)
    (h₁ : totalSize kept ≤ maxBytes) (h₂ : kept.length ≤ maxFiles) :
    ensureCacheLimits maxBytes maxFiles kept = ([], kept) := by
  apply ensureCacheLimits_under
  push_neg
  exact ⟨h₁, h₂⟩

/- ## Claim C2 — eviction pass: algorithm, resulting bounds, idempotence -/

/-- C2: one eviction pass in which every deletion succeeds (so the
remaining entries are exactly `(ensureCacheLimits ...).2`) leaves both
bounds satisfied — `totalBytes ≤ maxBytes` and `count ≤ maxFiles` —
under the claim's assumptions `maxFiles ≥ 1` and "no single file alone
exceeds maxBytes" (in fact neither assumption is needed); an immediately
repeated call on the resulting state plans zero deletions and changes
nothing; and in the concrete case `maxBytes = 2000`, `maxFiles = 2` with
three 1000-byte entries at times `t1 < t2 < t3`, exactly the `t1` entry
is selected for deletion and `t2`, `t3` remain. -/
theorem ensureCacheLimits_spec (maxBytes maxFiles : Nat) (files : List FileEntry)
    (hmf : 1 ≤ maxFiles) (hone : ∀ f ∈ files, f.size ≤ maxBytes) :
    totalSize (ensureCacheLimits maxBytes maxFiles files).2 ≤ maxBytes ∧
    (ensureCacheLimits maxBytes maxFiles files).2.length ≤ maxFiles ∧
    ensureCacheLimits maxBytes maxFiles (ensureCacheLimits maxBytes maxFiles files).2 =
      ([], (ensureCacheLimits maxBytes maxFiles files).2) ∧
    ensureCacheLimits 2000 2 [⟨"t1", 1000, 1⟩, ⟨"t2", 1000, 2⟩, ⟨"t3", 1000, 3⟩] =
      ([⟨"t1", 1000, 1⟩], [⟨"t2", 1000, 2⟩, ⟨"t3", 1000, 3⟩]) := by
  have hb := ensureCacheLimits_bounds maxBytes maxFiles files
  refine ⟨hb.1, hb.2, ?_, by decide⟩
  exact ensureCacheLimits_second_pass maxBytes maxFiles _ hb.1 hb.2

/-- Witness for `ensureCacheLimits_spec` at the claim's own concrete
scenario. -/
theorem ensureCacheLimits_spec_witness :
    totalSize (ensureCacheLimits 2000 2
        [⟨"t1", 1000, 1⟩, ⟨"t2", 1000, 2⟩, ⟨"t3", 1000, 3⟩]).2 ≤ 2000 ∧
    ensureCacheLimits 2000 2 [⟨"t1", 1000, 1⟩, ⟨"t2", 1000, 2⟩, ⟨"t3", 1000, 3⟩] =
      ([⟨"t1", 1000, 1⟩], [⟨"t2", 1000, 2⟩, ⟨"t3", 1000, 3⟩]) := by
  have h := ensureCacheLimits_spec 2000 2
    [⟨"t1", 1000, 1⟩, ⟨"t2", 1000, 2⟩, ⟨"t3", 1000, 3⟩]
    (by decide) (by decide)
  exact ⟨h.1, h.2.2.2⟩

/- ## Claim C7 — what `getCacheStats` actually returns -/

/-- A concrete directory listing holding a `.tmp` file of 5 bytes and a
zero-byte `.mp3` file, both with successful `stat` calls. -/
def tmpZeroDir : List DirEntry :=
  [⟨"x.tmp", some ⟨5, 1⟩⟩, ⟨"y.mp3", some ⟨0, 2⟩⟩]

/-- C7 counterexample: contrary to the claim, `getCacheStats` does not
exclude `.tmp` files or zero-byte files — on a directory holding a
5-byte `x.tmp` and a zero-byte `y.mp3`, both appear in the returned
entry list and the `.tmp` file's bytes are counted in the total
(the claim instead demands `size = 0` and `files = []` here, plus a
deletion of the zero-byte file, which the function never performs). -/
theorem getCacheStats_counterexample :
    (getCacheStats tmpZeroDir).size = 5 ∧
    ((getCacheStats tmpZeroDir).files.map fun f => f.name) = ["x.tmp", "y.mp3"] := by
  decide

/-- C7 (amended): `getCacheStats` returns every directory entry whose
`stat` succeeded — regardless of a `.tmp` suffix or a zero size — with
`size` the sum of all their sizes; it deletes nothing.  (Zero-byte
cleanup happens elsewhere: in the protocol handler's cache-hit path.) -/
theorem getCacheStats_no_filter (dir : List DirEntry) :
    (getCacheStats dir).files = dir.filterMap statEntry ∧
    (getCacheStats dir).size = totalSize (dir.filterMap statEntry) ∧
    (∀ d ∈ dir, ∀ fe, statEntry d = some fe → fe ∈ (getCacheStats dir).files) := by
  have hfiles : (getCacheStats dir).files = dir.filterMap statEntry := by
    show (dir.map statEntry).filterMap id = dir.filterMap statEntry
    rw [List.filterMap_map]
    rfl
  have hsize : (getCacheStats dir).size = totalSize (dir.filterMap statEntry) := by
    show totalSize ((dir.map statEntry).filterMap id) = totalSize (dir.filterMap statEntry)
    rw [List.filterMap_map]
    rfl
  refine ⟨hfiles, hsize, ?_⟩
  intro d hd fe hfe
  rw [hfiles, List.mem_filterMap]
  exact ⟨d, hd, hfe⟩

/-- Witness for `getCacheStats_no_filter`: on the concrete listing, the
`.tmp` entry (stat succeeded) is indeed among the returned files. -/
theorem getCacheStats_no_filter_witness :
    (⟨"x.tmp", 5, 1⟩ : FileEntry) ∈ (getCacheStats tmpZeroDir).files :=
  (getCacheStats_no_filter tmpZeroDir).2.2 ⟨"x.tmp", some ⟨5, 1⟩⟩ (by decide)
    ⟨"x.tmp", 5, 1⟩ (by decide)

/- ## Claim C8 — a deletion failure aborts the eviction pass -/

/-- Three one-byte entries; with `maxFiles = 1` the eviction pass
selects the two oldest (`a`, `b`) for deletion. -/
def threeSmall : List FileEntry := [⟨"a", 1, 1⟩, ⟨"b", 1, 2⟩, ⟨"c", 1, 3⟩]

/-- `fs.unlink` throws exactly for the file named `a`. -/
def unlinkFailsA : FileEntry → Bool := fun f => f.name == "a"

/-- C8 counterexample: contrary to the claim, a deletion failure aborts
the rest of the eviction pass.  With `maxFiles = 1` the pass selects
`a` and `b` for deletion; `unlink` throwing on `a` exits the loop into
the `catch`, so `b` — though selected — is never attempted. -/
theorem evictionAbort_counterexample :
    (ensureCacheLimits 10000 1 threeSmall).1 = [⟨"a", 1, 1⟩, ⟨"b", 1, 2⟩] ∧
    deletionAttempts unlinkFailsA (ensureCacheLimits 10000 1 threeSmall).1 =
      [⟨"a", 1, 1⟩] ∧
    (⟨"b", 1, 2⟩ : FileEntry) ∉
      deletionAttempts unlinkFailsA (ensureCacheLimits 10000 1 threeSmall).1 := by
  decide

/-- C8 (amended): when `fs.unlink` first throws on entry `f`, the
deletion loop attempts exactly the selected entries before `f` and `f`
itself, then aborts — every selected entry after the failing one is left
unattempted (the `catch` only logs; a later pass re-selects the
survivors). -/
theorem deletionAttempts_abort (unlinkFails : FileEntry → Bool)
    (pre : List FileEntry) (f : FileEntry) (rest : List FileEntry)
    (hpre : ∀ g ∈ pre, unlinkFails g = false) (hf : unlinkFails f = true) :
    deletionAttempts unlinkFails (pre ++ f :: rest) = pre ++ [f] := by
  induction pre with
  | nil => simp [deletionAttempts, hf]
  | cons g gs ih =>
    have hg : unlinkFails g = false := hpre g (by simp)
    have hstep := ih fun x hx => hpre x (by simp [hx])
    simp [deletionAttempts, hg, hstep]

/-- Witness for `deletionAttempts_abort`: with the unlink that throws on
`a`, a selection `[b, a, c]` is attempted only up to `a`. -/
theorem deletionAttempts_abort_witness :
    deletionAttempts unlinkFailsA [⟨"b", 1, 2⟩, ⟨"a", 1, 1⟩, ⟨"c", 1, 3⟩] =
      [⟨"b", 1, 2⟩, ⟨"a", 1, 1⟩] :=
  deletionAttempts_abort unlinkFailsA [⟨"b", 1, 2⟩] ⟨"a", 1, 1⟩ [⟨"c", 1, 3⟩]
    (by decide) (by decide)

/- ## Claim C3 — temp-file writes never expose partial content -/

theorem writeChunks_eq (acc : List Nat) (cs : List (List Nat)) :
    writeChunks acc cs = acc ++ cs.flatten := by
  induction cs generalizing acc with
  | nil => simp [writeChunks]
  | cons c rest ih => simp [writeChunks, ih]

/-- C3: every cache write streams into the `.tmp` path, and only a full,
error-free completion (clean end of stream and successful move) makes
any file appear under the final name — and then its content is the
complete byte stream; on any error the temp file is deleted and the
store is unchanged (the final path keeps its previous content, no temp
file remains); in no case is partial content visible under the final
name. -/
theorem saveStreamToFile_spec (s : MediaStream) (moveOk : Bool) (fs0 : CacheFs) :
    (saveStreamToFile s moveOk fs0).1.temp = none ∧
    ((saveStreamToFile s moveOk fs0).2 = true →
      (saveStreamToFile s moveOk fs0).1.final = some s.chunks.flatten ∧ s.ok = true) ∧
    ((saveStreamToFile s moveOk fs0).2 = false →
      (saveStreamToFile s moveOk fs0).1.final = fs0.final) ∧
    ((saveStreamToFile s moveOk fs0).1.final = fs0.final ∨
      (saveStreamToFile s moveOk fs0).1.final = some s.chunks.flatten) := by
  unfold saveStreamToFile
  rw [writeChunks_eq]
  by_cases hok : s.ok <;> by_cases hm : moveOk <;> simp [hok, hm]

/-- Witness for `saveStreamToFile_spec`: a stream that errors after one
chunk leaves the previously cached final content untouched and no temp
file behind. -/
theorem saveStreamToFile_spec_witness :
    (saveStreamToFile ⟨[[1, 2]], false⟩ true ⟨some [7], some [9]⟩).1.temp = none ∧
    (saveStreamToFile ⟨[[1, 2]], false⟩ true ⟨some [7], some [9]⟩).1.final = some [9] := by
  have h := saveStreamToFile_spec ⟨[[1, 2]], false⟩ true ⟨some [7], some [9]⟩
  exact ⟨h.1, h.2.2.1 (by decide)⟩

/- ## Claim C1 — ranged cache misses are never promoted into the cache -/

/-- A successful remote fetch delivering two chunks, used as the C1
witness input. -/
def remoteOkSmall : RemoteResponse :=
  ⟨true, 200, some "audio/mpeg", ⟨[[1, 2], [3]], true⟩⟩

/-- C1: on the cache-miss path, a request that carries a `Range` header
never drains the remote body into the cache store — the filesystem is
left exactly as it was, so no non-temporary cache file for that key is
created or promoted by the request; and conversely the tee into the
cache write is taken only when the request carried no `Range` header,
caching was not disabled (`cache=0` absent), and the remote response was
ok. -/
theorem handleMiss_range_never_promotes (shouldCache hasRange : Bool)
    (remote : RemoteResponse) (moveOk : Bool) (fs0 : CacheFs) :
    (hasRange = true →
      (handleMiss shouldCache hasRange remote moveOk fs0).fs = fs0 ∧
      (handleMiss shouldCache hasRange remote moveOk fs0).didTee = false) ∧
    ((handleMiss shouldCache hasRange remote moveOk fs0).didTee = true →
      hasRange = false ∧ shouldCache = true ∧ remote.ok = true) := by
  unfold handleMiss
  by_cases hok : remote.ok <;> by_cases hsc : shouldCache <;> by_cases hhr : hasRange <;>
    simp [hok, hsc, hhr]

/-- Witness for `handleMiss_range_never_promotes`: a ranged cache miss
with caching enabled and a successful remote fetch leaves an empty cache
filesystem empty. -/
theorem handleMiss_range_never_promotes_witness :
    (handleMiss true true remoteOkSmall true ⟨none, none⟩).fs = ⟨none, none⟩ ∧
    (handleMiss true true remoteOkSmall true ⟨none, none⟩).didTee = false :=
  (handleMiss_range_never_promotes true true remoteOkSmall true ⟨none, none⟩).1 rfl

/- ## Claims C4 and C10 — cache-hit range serving -/

theorem fileRange_valid (content : List Nat) (start stop : Int)
    (h0 : 0 ≤ start) (hse : start ≤ stop) :
    fileRange content start stop =
      some ((content.drop start.toNat).take (stop - start + 1).toNat) := by
  unfold fileRange
  rw [if_neg (by omega : ¬(start < 0 ∨ stop < start))]

theorem fileRange_oob (content : List Nat) (start stop : Int)
    (h : start < 0 ∨ stop < start) :
    fileRange content start stop = none := by
  unfold fileRange
  rw [if_pos h]

theorem fileRange_spec (content : List Nat) (start stop : Int) (body : List Nat)
    (h0 : 0 ≤ start) (hse : start ≤ stop) (hlt : stop < (content.length : Int))
    (hbody : fileRange content start stop = some body) :
    body.length = (stop - start).toNat + 1 ∧
    ∀ i, i < (stop - start).toNat + 1 →
      body.getD i 0 = content.getD (start.toNat + i) 0 := by
  rw [fileRange_valid content start stop h0 hse] at hbody
  obtain rfl : body = (content.drop start.toNat).take (stop - start + 1).toNat :=
    (Option.some_inj.mp hbody).symm
  constructor
  · rw [List.length_take, List.length_drop]
    omega
  · intro i hi
    rw [List.getD_eq_getElem?_getD, List.getD_eq_getElem?_getD, List.getElem?_take]
    rw [if_pos (by omega : i < (stop - start + 1).toNat)]
    rw [List.getElem?_drop]

/-- The range branch as one equation: the response is `mkRangeResp`
mapped over the `createReadStream` outcome, with the end position
defaulted to `size - 1` when absent. -/
theorem serveCachedFile_range_eq (content : List Nat) (sniffedType : Option String)
    (st : Int) (so : Option Int) :
    serveCachedFile content sniffedType (some ⟨st, so⟩) =
      (fileRange content st (so.getD ((content.length : Int) - 1))).map
        (mkRangeResp content st (so.getD ((content.length : Int) - 1))) := by
  cases so <;> rfl

/-- The concrete cached 1000-byte file of the claims' range scenario. -/
def content1000 : List Nat := (List.range 1000).map fun i => i % 256

set_option maxRecDepth 8000 in
/-- C4: on a cache hit for a file of `fs = fileSize` bytes, a valid
`Range: bytes=start-end` request (with the end position `es` defaulting
to `fileSize - 1` when absent) is answered — a response exists — with
status 206, `Content-Range: bytes {start}-{es}/{fs}`,
`Accept-Ranges: bytes`, `Content-Length = es - start + 1`, and a body
that is exactly the byte slice `[start, es]` of the cached file (stated
by length plus pointwise equality); concretely, a cached 1000-byte file
under `Range: bytes=100-199` yields 206,
`Content-Range: bytes 100-199/1000` and a 100-byte body. -/
theorem serveCachedFile_range_spec (content : List Nat) (sniffedType : Option String)
    (start es fs : Int) (stopOpt : Option Int)
    (hne : content ≠ [])
    (hes : es = stopOpt.getD ((content.length : Int) - 1))
    (hfs : fs = (content.length : Int))
    (h0 : 0 ≤ start) (hse : start ≤ es) (hlt : es < fs) :
    (serveCachedFile content sniffedType (some ⟨start, stopOpt⟩)).isSome = true ∧
    (∀ resp, serveCachedFile content sniffedType (some ⟨start, stopOpt⟩) = some resp →
      resp.status = 206 ∧
      resp.contentRange = some s!"bytes {start}-{es}/{fs}" ∧
      resp.acceptRanges = some "bytes" ∧
      resp.contentLength = some (es - start + 1) ∧
      resp.body.length = (es - start).toNat + 1 ∧
      (∀ i, i < (es - start).toNat + 1 →
        resp.body.getD i 0 = content.getD (start.toNat + i) 0)) ∧
    (serveCachedFile content1000 none (some ⟨100, some 199⟩)).map TingResponse.status =
      some 206 ∧
    (serveCachedFile content1000 none (some ⟨100, some 199⟩)).map TingResponse.contentRange =
      some (some "bytes 100-199/1000") ∧
    (serveCachedFile content1000 none (some ⟨100, some 199⟩)).map TingResponse.contentLength =
      some (some 100) ∧
    (serveCachedFile content1000 none (some ⟨100, some 199⟩)).map
      (fun resp => resp.body.length) = some 100 := by
  subst hfs
  have heq := serveCachedFile_range_eq content sniffedType start stopOpt
  rw [← hes] at heq
  have hval := fileRange_valid content start es h0 hse
  have hfr := fileRange_spec content start es
    ((content.drop start.toNat).take (es - start + 1).toNat) h0 hse hlt hval
  refine ⟨?_, ?_, by decide, by decide, by decide, by decide⟩
  · rw [heq, hval]
    rfl
  · intro resp hresp
    rw [heq, hval, Option.map_some'] at hresp
    rw [← Option.some_inj.mp hresp]
    exact ⟨rfl, rfl, rfl, rfl, hfr.1, hfr.2⟩

set_option maxRecDepth 8000 in
/-- Witness for `serveCachedFile_range_spec` at the concrete scenario:
1000-byte cached file, `Range: bytes=100-199`. -/
theorem serveCachedFile_range_spec_witness :
    (serveCachedFile content1000 none (some ⟨100, some 199⟩)).map TingResponse.status =
      some 206 ∧
    (serveCachedFile content1000 none (some ⟨100, some 199⟩)).map TingResponse.contentRange =
      some (some "bytes 100-199/1000") ∧
    (serveCachedFile content1000 none (some ⟨100, some 199⟩)).map
      (fun resp => resp.body.length) = some 100 := by
  have h := serveCachedFile_range_spec content1000 none 100 199 1000 (some 199)
    (by decide) (by decide) (by decide) (by decide) (by decide) (by decide)
  exact ⟨h.2.2.1, h.2.2.2.1, h.2.2.2.2.2⟩

set_option maxRecDepth 8000 in
/-- C10 counterexample: contrary to the claim, not every `Range` request
on a non-empty cached file receives a 206.  For degenerate parsed bounds
(`start > end`), `fs.createReadStream` throws `ERR_OUT_OF_RANGE` before
any `Response` is built, and the uncaught throw fails the request with
no response at all: on the 1000-byte file, `bytes=1500-` (the end
defaults to 999 < 1500) and `bytes=300-200` both yield `none`, not a
206 with `Content-Length` −500 resp. −99. -/
theorem serveCachedFile_throw_counterexample :
    serveCachedFile content1000 none (some ⟨1500, none⟩) = none ∧
    serveCachedFile content1000 none (some ⟨300, some 200⟩) = none := by
  decide

set_option maxRecDepth 8000 in
/-- C10 (amended): the range branch itself validates nothing and never
produces a 416.  Whenever a response exists it is a 206 with
`Content-Length` computed blindly as `end - start + 1` from the parsed
values; a response exists exactly for non-degenerate bounds
`0 ≤ start ≤ end` — even with `start` at or beyond the file size, where
the body is simply empty (concretely `bytes=1200-1500` on the 1000-byte
file: 206, `Content-Length` 301, empty body); for degenerate bounds
(`start > end`, e.g. `bytes=1500-` with the end defaulted to 999, or
`bytes=300-200`, or a negative start) `createReadStream`'s
`ERR_OUT_OF_RANGE` throw escapes the handler and the request fails with
no response — still never a 416. -/
theorem serveCachedFile_no_range_validation (content : List Nat) (sniffedType : Option String)
    (r : RangeSpec) (hne : content ≠ []) :
    (∀ resp, serveCachedFile content sniffedType (some r) = some resp →
      resp.status = 206 ∧ resp.status ≠ 416 ∧
      resp.contentLength = some (r.stop.getD ((content.length : Int) - 1) - r.start + 1)) ∧
    (0 ≤ r.start → r.start ≤ r.stop.getD ((content.length : Int) - 1) →
      (serveCachedFile content sniffedType (some r)).isSome = true) ∧
    ((r.start < 0 ∨ r.stop.getD ((content.length : Int) - 1) < r.start) →
      serveCachedFile content sniffedType (some r) = none) ∧
    serveCachedFile content1000 none (some ⟨1500, none⟩) = none ∧
    serveCachedFile content1000 none (some ⟨300, some 200⟩) = none ∧
    (serveCachedFile content1000 none (some ⟨1200, some 1500⟩)).map TingResponse.status =
      some 206 ∧
    (serveCachedFile content1000 none (some ⟨1200, some 1500⟩)).map TingResponse.contentLength =
      some (some 301) ∧
    (serveCachedFile content1000 none (some ⟨1200, some 1500⟩)).map
      (fun resp => resp.body.length) = some 0 := by
  obtain ⟨st, so⟩ := r
  dsimp only
  have heq := serveCachedFile_range_eq content sniffedType st so
  refine ⟨?_, ?_, ?_, by decide, by decide, by decide, by decide, by decide⟩
  · intro resp hresp
    rw [heq] at hresp
    cases hfr : fileRange content st (so.getD ((content.length : Int) - 1)) with
    | none =>
      rw [hfr] at hresp
      simp at hresp
    | some body =>
      rw [hfr, Option.map_some'] at hresp
      rw [← Option.some_inj.mp hresp]
      exact ⟨rfl, (by decide : (206 : Nat) ≠ 416), rfl⟩
  · intro h0 h1
    rw [heq, fileRange_valid content st (so.getD ((content.length : Int) - 1)) h0 h1]
    rfl
  · intro h
    rw [heq, fileRange_oob content st (so.getD ((content.length : Int) - 1)) h]
    rfl

set_option maxRecDepth 8000 in
/-- Witness for `serveCachedFile_no_range_validation`: on the 1000-byte
file, `bytes=1200-1500` (start beyond EOF but not degenerate) does get a
response, and `bytes=1500-` gets none. -/
theorem serveCachedFile_no_range_validation_witness :
    (serveCachedFile content1000 none (some ⟨1200, some 1500⟩)).isSome = true ∧
    serveCachedFile content1000 none (some ⟨1500, none⟩) = none := by
  have h := serveCachedFile_no_range_validation content1000 none ⟨1200, some 1500⟩ (by decide)
  exact ⟨h.2.1 (by decide) (by decide), h.2.2.2.1⟩

/- ## Claims C5 and C6 — redirect resolver termination policy and fallback -/

/-- `new URL(location, base).toString()` restricted to absolute,
already-normalized location headers: resolution just returns the header. -/
def absLoc : String → String → Option String := fun loc _ => some loc

/-- A network in which the input URL redirects once and the target
answers a terminal 404. -/
def net404 : String → FetchOutcome := fun u =>
  if u = "http://a/" then .ok ⟨302, some "http://b/"⟩ else .ok ⟨404, none⟩

/-- C5 counterexample: the claim says a terminal 404 makes resolution
fail, but the handler accepts every terminal status in [200,500) — after
one hop to `http://b/` answering 404, the resolver returns `http://b/`
as a success (a failure would instead have fallen back to the original
input `http://a/`). -/
theorem resolveRedirect_404_counterexample :
    resolveRedirect net404 absLoc "http://a/" = "http://b/" ∧
    ("http://b/" : String) ≠ "http://a/" := by
  constructor
  · decide
  · decide

/-- C5 (amended): at a terminal (non-redirect) response the resolver
succeeds with the current URL exactly when the status is in [200,500) —
so [200,300) and 401 succeed as claimed, but so does every other 4xx
(404 included) and every non-redirect 3xx; only statuses outside
[200,500) make the resolution fail. -/
theorem followRedirects_terminal (net : String → FetchOutcome)
    (resolveLoc : String → String → Option String) (fuel : Nat) (u : String)
    (response : NetResponse) (hnet : net u = .ok response)
    (hterm : ¬(300 ≤ response.status ∧ response.status < 400 ∧
      locationTruthy response.location = true)) :
    followRedirects net resolveLoc (fuel + 1) u =
      if 200 ≤ response.status ∧ response.status < 500 then some u else none := by
  simp only [followRedirects, hnet]
  rw [if_neg hterm]

/-- Witness for `followRedirects_terminal`: a terminal 404 at the very
first probe succeeds with the current URL. -/
theorem followRedirects_terminal_witness :
    followRedirects (fun u => .ok ⟨404, none⟩) absLoc 1 "http://c/" = some "http://c/" := by
  have h := followRedirects_terminal (fun u => .ok ⟨404, none⟩) absLoc 0 "http://c/"
    ⟨404, none⟩ rfl (by decide)
  rw [h]
  decide

/-- A chain of three redirects ending in a terminal 200. -/
def chain3 : String → FetchOutcome := fun u =>
  if u = "http://h/0" then .ok ⟨302, some "http://h/1"⟩
  else if u = "http://h/1" then .ok ⟨302, some "http://h/2"⟩
  else if u = "http://h/2" then .ok ⟨302, some "http://h/3"⟩
  else if u = "http://h/3" then .ok ⟨200, none⟩
  else .fail

/-- A chain of eleven redirects (the 200 at its end is out of reach of
the 10-hop budget). -/
def chain11 : String → FetchOutcome := fun u =>
  if u = "http://h/0" then .ok ⟨302, some "http://h/1"⟩
  else if u = "http://h/1" then .ok ⟨302, some "http://h/2"⟩
  else if u = "http://h/2" then .ok ⟨302, some "http://h/3"⟩
  else if u = "http://h/3" then .ok ⟨302, some "http://h/4"⟩
  else if u = "http://h/4" then .ok ⟨302, some "http://h/5"⟩
  else if u = "http://h/5" then .ok ⟨302, some "http://h/6"⟩
  else if u = "http://h/6" then .ok ⟨302, some "http://h/7"⟩
  else if u = "http://h/7" then .ok ⟨302, some "http://h/8"⟩
  else if u = "http://h/8" then .ok ⟨302, some "http://h/9"⟩
  else if u = "http://h/9" then .ok ⟨302, some "http://h/10"⟩
  else if u = "http://h/10" then .ok ⟨302, some "http://h/11"⟩
  else .ok ⟨200, none⟩

/-- C6: whenever the redirect loop fails (`none`) — budget exhausted,
terminal status outside [200,500), invalid redirect URL, or a network
error — the handler raises nothing and returns the exact original input
string; concretely, a chain of 3 redirects ending in 200 resolves to the
chain's final URL, a chain of 11 redirects exhausts the 10-hop budget
and falls back to the input, as do a network error and a terminal
500. -/
theorem resolveRedirect_failure_fallback (net : String → FetchOutcome)
    (resolveLoc : String → String → Option String) (initialUrl : String)
    (hfail : followRedirects net resolveLoc 10
      (collapseDupScheme (schemeFix initialUrl)) = none) :
    resolveRedirect net resolveLoc initialUrl = initialUrl ∧
    resolveRedirect chain3 absLoc "http://h/0" = "http://h/3" ∧
    resolveRedirect chain11 absLoc "http://h/0" = "http://h/0" ∧
    resolveRedirect (fun u => FetchOutcome.fail) absLoc "example.com" = "example.com" ∧
    resolveRedirect (fun u => FetchOutcome.ok ⟨500, none⟩) absLoc "http://a/x" = "http://a/x" := by
  refine ⟨?_, by decide, by decide, by decide, by decide⟩
  show (followRedirects net resolveLoc 10
    (collapseDupScheme (schemeFix initialUrl))).getD initialUrl = initialUrl
  rw [hfail]
  rfl

/-- Witness for `resolveRedirect_failure_fallback`: a dead network makes
the resolver return the typed address unchanged. -/
theorem resolveRedirect_failure_fallback_witness :
    resolveRedirect (fun u => FetchOutcome.fail) absLoc "myserver.example" =
      "myserver.example" :=
  (resolveRedirect_failure_fallback (fun u => FetchOutcome.fail) absLoc
    "myserver.example" (by decide)).1

/- ## Claim C9 — addTask: no-op, retry-reset, or fresh enqueue -/

/-- C9 counterexample: the claim's "otherwise a new task ... is added"
branch covers the reachable state where a `pending` (or `downloading`)
task with the same id already exists — there `addTask` is a no-op
(the `t.status !== 'failed'` guard matches any non-failed status), so no
new task is added and the list keeps length 1 where the claim demands an
enqueue. -/
theorem addTask_pending_counterexample :
    addTask [⟨"7", TaskStatus.pending, 30, none, 5⟩] "7" 9 =
      [⟨"7", TaskStatus.pending, 30, none, 5⟩] ∧
    (addTask [⟨"7", TaskStatus.pending, 30, none, 5⟩] "7" 9).length = 1 := by
  decide

/-- C9 (amended): `addTask` (i) is a no-op whenever a task with the same
id exists in any non-`failed` state — `completed`, but also `pending` or
`downloading`; (ii) when tasks with that id exist and all of them are
`failed`, resets them to `pending` with progress 0 and a cleared error
without adding a duplicate (the task list keeps its length and equals
`retryTask`'s output); (iii) only when no task with that id exists is a
fresh `pending` task with progress 0 prepended. -/
theorem addTask_spec (tasks : List DownloadTask) (newId : String) (now : Nat) :
    ((∃ t ∈ tasks, t.id = newId ∧ t.status ≠ TaskStatus.failed) →
      addTask tasks newId now = tasks) ∧
    (((∃ t ∈ tasks, t.id = newId) ∧
        (∀ t ∈ tasks, t.id = newId → t.status = TaskStatus.failed)) →
      addTask tasks newId now = retryTask tasks newId ∧
      (addTask tasks newId now).length = tasks.length ∧
      (∀ t ∈ addTask tasks newId now, t.id = newId →
        t.status = TaskStatus.pending ∧ t.progress = 0 ∧ t.error = none)) ∧
    ((∀ t ∈ tasks, t.id ≠ newId) →
      addTask tasks newId now =
        ⟨newId, TaskStatus.pending, 0, none, now⟩ :: tasks) := by
  refine ⟨?_, ?_, ?_⟩
  · rintro ⟨t, ht, hid, hst⟩
    have hfind : (tasks.find? fun t =>
        decide (t.id = newId ∧ t.status ≠ TaskStatus.failed)).isSome := by
      rw [List.find?_isSome]
      refine ⟨t, ht, ?_⟩
      simp only [decide_eq_true_eq]
      exact ⟨hid, hst⟩
    unfold addTask
    rw [if_pos hfind]
  · rintro ⟨⟨t, ht, hid⟩, hall⟩
    have hfind₁ : (tasks.find? fun t =>
        decide (t.id = newId ∧ t.status ≠ TaskStatus.failed)) = none := by
      rw [List.find?_eq_none]
      intro x hx
      simp only [decide_eq_true_eq, not_and, not_not]
      intro hxid
      exact hall x hx hxid
    have hfind₂ : (tasks.find? fun t =>
        decide (t.id = newId ∧ t.status = TaskStatus.failed)).isSome := by
      rw [List.find?_isSome]
      exact ⟨t, ht, by simp [hid, hall t ht hid]⟩
    have heq : addTask tasks newId now = retryTask tasks newId := by
      unfold addTask
      rw [hfind₁]
      simp only [Option.isSome_none, Bool.false_eq_true, if_false]
      rw [if_pos hfind₂]
    refine ⟨heq, ?_, ?_⟩
    · rw [heq]
      exact List.length_map tasks _
    · intro u hu huid
      rw [heq] at hu
      obtain ⟨x, hx, hfx⟩ := List.mem_map.mp hu
      by_cases hxid : x.id = newId
      · rw [if_pos hxid] at hfx
        rw [← hfx]
        exact ⟨rfl, rfl, rfl⟩
      · rw [if_neg hxid] at hfx
        exact absurd (hfx ▸ huid) hxid
  · intro hno
    have hfind₁ : (tasks.find? fun t =>
        decide (t.id = newId ∧ t.status ≠ TaskStatus.failed)) = none := by
      rw [List.find?_eq_none]
      intro x hx
      simp only [decide_eq_true_eq, not_and]
      exact fun hxid => absurd hxid (hno x hx)
    have hfind₂ : (tasks.find? fun t =>
        decide (t.id = newId ∧ t.status = TaskStatus.failed)) = none := by
      rw [List.find?_eq_none]
      intro x hx
      simp only [decide_eq_true_eq, not_and]
      exact fun hxid => absurd hxid (hno x hx)
    unfold addTask
    rw [hfind₁, hfind₂]
    simp

/-- Witness for `addTask_spec`: re-adding an already-completed task id
leaves the list untouched. -/
theorem addTask_spec_witness :
    addTask [⟨"7", TaskStatus.completed, 100, none, 5⟩] "7" 9 =
      [⟨"7", TaskStatus.completed, 100, none, 5⟩] :=
  (addTask_spec [⟨"7", TaskStatus.completed, 100, none, 5⟩] "7" 9).1
    ⟨⟨"7", TaskStatus.completed, 100, none, 5⟩, by simp, rfl, by decide⟩
